import Mathlib

/-!
Verification of the typestate password manager (`src/password_manager.rs`).

The Rust code keeps a `HashMap<String, String>` of account names to
passwords together with a master password, and uses phantom type
parameters (`Locked` / `Unlocked` on `PasswordManager`,
`MissingPassword` / `MasterPassword` on `PasswordManagerBuilder`) to gate
which operations are callable in which state.  We embed the data model
and every operation shallowly: the hash map becomes an association list
with hash-map lookup/overwrite semantics, `&mut self` methods become
functions returning the updated value, and `Result<Ok, Err>` becomes
`Except Err Ok`.
-/

namespace RustTypestate

/-- Model of Rust's `HashMap<String, String>`: an association list whose
insert overwrites the binding of an existing key in place and otherwise
appends a fresh binding. -/
abbrev HMap := List (String × String)

/-- Model of `HashMap::insert`: overwrite the value stored at `k` if the
key is present, otherwise add the new binding. -/
def HMap.insert (m : HMap) (k v : String) : HMap :=
  match m with
  | [] => [(k, v)]
  | (k0, v0) :: rest =>
    if k0 = k then (k, v) :: rest else (k0, v0) :: HMap.insert rest k v

/-- Model of `HashMap::get` (combined with the `.map(|s| s.to_owned())`
in the source): the value stored at `k`, if any. -/
def HMap.find (m : HMap) (k : String) : Option String :=
  match m with
  | [] => none
  | (k0, v0) :: rest => if k0 = k then some v0 else HMap.find rest k

/-- Model of `HashMap::clone`: a structurally new copy of the map, built
entry by entry, sharing nothing with the original. -/
def HMap.clone : HMap → HMap
  | [] => []
  | (k0, v0) :: rest => (k0, v0) :: HMap.clone rest

/-- Phantom marker type: denotes a locked `PasswordManager`. -/
inductive Locked : Type where
  | mk : Locked

/-- Phantom marker type: denotes an unlocked `PasswordManager`. -/
inductive Unlocked : Type where
  | mk : Unlocked

/-- The password manager struct.  The lock state is the phantom type
parameter `State`, exactly as in the Rust source (where a
`PhantomData<State>` field carries it); the data fields are the master
password and the account-to-password map. -/
structure PasswordManager (State : Type) where
  master_password : String
  password_list : HMap

/-- `PasswordManager::<Locked>::unlock`: compare the candidate with the
stored master password; on a match produce the `Unlocked` manager with
the same fields, on a mismatch give the original locked manager back as
the error payload. -/
def PasswordManager.unlock (self : PasswordManager Locked) (master_password : String) :
    Except (PasswordManager Locked) (PasswordManager Unlocked) :=
  if master_password = self.master_password then
    Except.ok ⟨self.master_password, self.password_list⟩
  else
    Except.error self

/-- `PasswordManager::<Unlocked>::lock`: produce the `Locked` manager
with the same master password and password list. -/
def PasswordManager.lock (self : PasswordManager Unlocked) : PasswordManager Locked :=
  ⟨self.master_password, self.password_list⟩

/-- `PasswordManager::<Unlocked>::get_passwords`: return a clone of the
stored account/password map. -/
def PasswordManager.get_passwords (self : PasswordManager Unlocked) : HMap :=
  HMap.clone self.password_list

/-- `PasswordManager::<Unlocked>::get_password`: look up one account. -/
def PasswordManager.get_password (self : PasswordManager Unlocked) (account : String) :
    Option String :=
  HMap.find self.password_list account

/-- `PasswordManager::<Unlocked>::insert`: add (or overwrite) an account.
The Rust method takes `&mut self`; we model it by returning the updated
manager. -/
def PasswordManager.insert (self : PasswordManager Unlocked) (account password : String) :
    PasswordManager Unlocked :=
  ⟨self.master_password, HMap.insert self.password_list account password⟩

/-- Marker type of builders whose master password has not been set. -/
inductive MissingPassword : Type where
  | mk : MissingPassword

/-- Marker type of builders holding a chosen master password (the Rust
tuple struct `MasterPassword(String)`). -/
structure MasterPassword where
  val : String

/-- The builder for `PasswordManager`: the `master_password` field has
the phantom-role type `P`, which is `MissingPassword` until
`with_master_password` is called and `MasterPassword` afterwards. -/
structure PasswordManagerBuilder (P : Type) where
  master_password : P
  password_list : HMap

/-- `PasswordManagerBuilder::new`: no master password, empty list. -/
def PasswordManagerBuilder.new : PasswordManagerBuilder MissingPassword :=
  ⟨MissingPassword.mk, []⟩

/-- The `Default` impl for `PasswordManagerBuilder`: delegates to `new`. -/
def PasswordManagerBuilder.default : PasswordManagerBuilder MissingPassword :=
  PasswordManagerBuilder.new

/-- `PasswordManagerBuilder::with_account` (available for every slot
state `P`): clone the accumulated list, insert the new entry, keep the
master-password slot unchanged. -/
def PasswordManagerBuilder.with_account {P : Type} (self : PasswordManagerBuilder P)
    (account password : String) : PasswordManagerBuilder P :=
  ⟨self.master_password, HMap.insert (HMap.clone self.password_list) account password⟩

/-- `PasswordManagerBuilder::<MissingPassword>::with_master_password`:
move the builder into the `MasterPassword` state, keeping the entries. -/
def PasswordManagerBuilder.with_master_password (self : PasswordManagerBuilder MissingPassword)
    (master_password : String) : PasswordManagerBuilder MasterPassword :=
  ⟨MasterPassword.mk master_password, self.password_list⟩

/-- `PasswordManagerBuilder::<MasterPassword>::build`: produce the
finished manager, in the `Locked` state, from the stored master password
and entry list. -/
def PasswordManagerBuilder.build (self : PasswordManagerBuilder MasterPassword) :
    PasswordManager Locked :=
  ⟨self.master_password.val, self.password_list⟩

/-- A finite sequence of chained `with_account` calls, applied in order. -/
def PasswordManagerBuilder.with_accounts {P : Type} (self : PasswordManagerBuilder P)
    (ops : List (String × String)) : PasswordManagerBuilder P :=
  ops.foldl (fun b p => PasswordManagerBuilder.with_account b p.1 p.2) self

/-- The last secret supplied for key `a` in a call sequence (`none` when
`a` was never supplied) — the reference answer used by claim C4. -/
def lastWrite (ops : List (String × String)) (a : String) : Option String :=
  ops.foldl (fun acc p => if p.1 = a then some p.2 else acc) none

/-- The master password carried by the outcome of an `unlock` call,
whichever variant it is. -/
def unlockResultMaster :
    Except (PasswordManager Locked) (PasswordManager Unlocked) → String
  | Except.ok u => u.master_password
  | Except.error l => l.master_password

theorem HMap.clone_eq (m : HMap) : HMap.clone m = m := by
  induction m with
  | nil => rfl
  | cons hd tl ih => cases hd; simp [HMap.clone, ih]

theorem HMap.find_insert (m : HMap) (k v a : String) :
    HMap.find (HMap.insert m k v) a = if k = a then some v else HMap.find m a := by
  induction m with
  | nil =>
    by_cases h : k = a <;> simp [HMap.insert, HMap.find, h]
  | cons hd tl ih =>
    obtain ⟨k0, v0⟩ := hd
    by_cases hk : k0 = k
    · subst hk
      by_cases h : k0 = a <;> simp [HMap.insert, HMap.find, h]
    · by_cases h : k0 = a
      · subst h
        have hka : ¬ k = k0 := fun hh => hk hh.symm
        simp [HMap.insert, HMap.find, hk, hka]
      · simp [HMap.insert, HMap.find, hk, h, ih]

theorem with_accounts_master {P : Type} (b : PasswordManagerBuilder P)
    (ops : List (String × String)) :
    (PasswordManagerBuilder.with_accounts b ops).master_password = b.master_password := by
  induction ops generalizing b with
  | nil => rfl
  | cons hd tl ih =>
    simpa [PasswordManagerBuilder.with_accounts, PasswordManagerBuilder.with_account]
      using ih ⟨b.master_password, HMap.insert (HMap.clone b.password_list) hd.1 hd.2⟩

theorem with_accounts_list {P : Type} (b : PasswordManagerBuilder P)
    (ops : List (String × String)) :
    (PasswordManagerBuilder.with_accounts b ops).password_list
      = ops.foldl (fun L p => HMap.insert L p.1 p.2) b.password_list := by
  induction ops generalizing b with
  | nil => rfl
  | cons hd tl ih =>
    simpa [PasswordManagerBuilder.with_accounts, PasswordManagerBuilder.with_account,
      HMap.clone_eq]
      using ih ⟨b.master_password, HMap.insert b.password_list hd.1 hd.2⟩

theorem find_foldl_insert (ops : List (String × String)) (E : HMap) (a : String) :
    HMap.find (ops.foldl (fun L p => HMap.insert L p.1 p.2) E) a
      = ops.foldl (fun acc p => if p.1 = a then some p.2 else acc) (HMap.find E a) := by
  induction ops generalizing E with
  | nil => rfl
  | cons hd tl ih =>
    simpa [HMap.find_insert] using ih (HMap.insert E hd.1 hd.2)

/-- C1.  For every store built with master secret `m` and entry map `E`,
`unlock c` succeeds if and only if `c = m`, and on success the unlocked
manager carries the same master secret and the same entries. -/
theorem unlock_succeeds_iff_correct_master (m c : String) (E : HMap) :
    (∃ u : PasswordManager Unlocked,
        PasswordManager.unlock (PasswordManagerBuilder.build ⟨MasterPassword.mk m, E⟩) c
          = Except.ok u
        ∧ u.master_password = m ∧ u.password_list = E)
      ↔ c = m := by
  constructor
  · rintro ⟨u, hu, -, -⟩
    by_contra hne
    simp [PasswordManagerBuilder.build, PasswordManager.unlock, hne] at hu
  · intro h
    subst h
    exact ⟨⟨c, E⟩, by simp [PasswordManagerBuilder.build, PasswordManager.unlock], rfl, rfl⟩

/-- C2.  Unlocking with a wrong candidate `m2 ≠ m` fails and hands back
the original locked store unchanged, and unlocking that returned value
with the true master secret `m` still succeeds with the same data. -/
theorem unlock_wrong_returns_store (m m2 : String) (E : HMap) (h : m2 ≠ m) :
    PasswordManager.unlock (PasswordManagerBuilder.build ⟨MasterPassword.mk m, E⟩) m2
        = Except.error (PasswordManagerBuilder.build ⟨MasterPassword.mk m, E⟩)
      ∧ ∃ u : PasswordManager Unlocked,
          PasswordManager.unlock (PasswordManagerBuilder.build ⟨MasterPassword.mk m, E⟩) m
            = Except.ok u
          ∧ u.master_password = m ∧ u.password_list = E := by
  refine ⟨?_, ⟨m, E⟩, ?_, rfl, rfl⟩
  · simp [PasswordManagerBuilder.build, PasswordManager.unlock, h]
  · simp [PasswordManagerBuilder.build, PasswordManager.unlock]

/-- Witness for C2 at the spec's concrete scenario: wrong candidate
`"wrong"` against master secret `"Hunter2"`. -/
theorem unlock_wrong_returns_store_witness :
    ("wrong" : String) ≠ "Hunter2"
      ∧ (PasswordManager.unlock
            (PasswordManagerBuilder.build ⟨MasterPassword.mk "Hunter2", []⟩) "wrong"
          = Except.error (PasswordManagerBuilder.build ⟨MasterPassword.mk "Hunter2", []⟩)
        ∧ ∃ u : PasswordManager Unlocked,
            PasswordManager.unlock
                (PasswordManagerBuilder.build ⟨MasterPassword.mk "Hunter2", []⟩) "Hunter2"
              = Except.ok u
            ∧ u.master_password = "Hunter2" ∧ u.password_list = []) :=
  ⟨by decide, unlock_wrong_returns_store "Hunter2" "wrong" [] (by decide)⟩

/-- C3.  Locking an unlocked store and unlocking the result with its own
master secret succeeds and restores a store with identical entries (and
the same master secret). -/
theorem lock_unlock_roundtrip (u : PasswordManager Unlocked) :
    ∃ u2 : PasswordManager Unlocked,
      PasswordManager.unlock (PasswordManager.lock u) u.master_password = Except.ok u2
        ∧ u2.password_list = u.password_list
        ∧ u2.master_password = u.master_password := by
  exact ⟨⟨u.master_password, u.password_list⟩,
    by simp [PasswordManager.lock, PasswordManager.unlock], rfl, rfl⟩

/-- C4.  For any sequence of `with_account` calls followed by `build`
and a successful `unlock m`, `get_password a` returns the last secret
supplied for `a` in the sequence, and `none` for keys never supplied. -/
theorem build_unlock_get_last_write (ops : List (String × String)) (m : String) :
    ∃ u : PasswordManager Unlocked,
      PasswordManager.unlock
          (PasswordManagerBuilder.build
            (PasswordManagerBuilder.with_master_password
              (PasswordManagerBuilder.with_accounts PasswordManagerBuilder.new ops) m)) m
        = Except.ok u
      ∧ ∀ a, PasswordManager.get_password u a = lastWrite ops a := by
  refine ⟨⟨m, (PasswordManagerBuilder.with_accounts PasswordManagerBuilder.new ops).password_list⟩,
    ?_, ?_⟩
  · simp [PasswordManagerBuilder.build, PasswordManagerBuilder.with_master_password,
      PasswordManager.unlock]
  · intro a
    simp [PasswordManager.get_password, with_accounts_list, PasswordManagerBuilder.new,
      find_foldl_insert, lastWrite, HMap.find]

/-- C5.  No operation changes the master secret: `unlock` (in both its
success and failure outcomes), `lock`, and `insert` all carry the master
secret through unchanged; `get_password` and `get_passwords` take the
manager by shared reference and return no manager at all. -/
theorem master_secret_immutable (pmL : PasswordManager Locked)
    (u : PasswordManager Unlocked) (c a s : String) :
    unlockResultMaster (PasswordManager.unlock pmL c) = pmL.master_password
      ∧ (PasswordManager.lock u).master_password = u.master_password
      ∧ (PasswordManager.insert u a s).master_password = u.master_password := by
  refine ⟨?_, rfl, rfl⟩
  by_cases h : c = pmL.master_password <;>
    simp [PasswordManager.unlock, unlockResultMaster, h]

/-- C6.  `insert a s` makes the entry for `a` equal to `s` whether or
not `a` was already present (silent overwrite, no error), and leaves
every other key's entry unchanged. -/
theorem insert_overwrites (u : PasswordManager Unlocked) (a s b : String) :
    PasswordManager.get_password (PasswordManager.insert u a s) b
      = if a = b then some s else PasswordManager.get_password u b := by
  simp [PasswordManager.get_password, PasswordManager.insert, HMap.find_insert]

/-- C7.  `build` on a builder whose slot was set to `m` by
`with_master_password` produces a store — of type
`PasswordManager Locked`, i.e. in the `Locked` state — whose master
secret is exactly `m` and whose entries are exactly the builder's. -/
theorem build_transfers_fields (b : PasswordManagerBuilder MissingPassword) (m : String) :
    (PasswordManagerBuilder.build
        (PasswordManagerBuilder.with_master_password b m)).master_password = m
      ∧ (PasswordManagerBuilder.build
          (PasswordManagerBuilder.with_master_password b m)).password_list
        = b.password_list :=
  ⟨rfl, rfl⟩

/-- C8.  `get_passwords` returns (a clone equal to) the full entries map
without mutating the store, and the returned map is a copy: inserting
into the returned value produces a separate map, after which
`get_password` and `get_passwords` on the same store still answer from
the store's own unchanged entries. -/
theorem get_passwords_returns_copy (u : PasswordManager Unlocked) (k v a : String) :
    PasswordManager.get_passwords u = u.password_list
      ∧ (let mutated := HMap.insert (PasswordManager.get_passwords u) k v
         PasswordManager.get_password u a = HMap.find u.password_list a
           ∧ PasswordManager.get_passwords u = u.password_list
           ∧ mutated = HMap.insert u.password_list k v) := by
  simp [PasswordManager.get_passwords, PasswordManager.get_password, HMap.clone_eq]

/-- C9.  Every builder in the `MasterPassword` state — the only state in
which `build` exists — arises from `with_master_password` on a
`MissingPassword` builder, so no store can be obtained from the builder
without the master secret having been supplied, and the built store's
master secret is the supplied one. -/
theorem store_requires_master_secret (b : PasswordManagerBuilder MasterPassword) :
    ∃ (b0 : PasswordManagerBuilder MissingPassword) (m : String),
      b = PasswordManagerBuilder.with_master_password b0 m
        ∧ (PasswordManagerBuilder.build b).master_password = m :=
  ⟨⟨MissingPassword.mk, b.password_list⟩, b.master_password.val, rfl, rfl⟩

/-- C10.  The `Default` impl produces exactly `new`'s builder (unset
slot, empty entries), so any chain of builder calls yields the same
result whichever of the two constructors started it. -/
theorem default_builder_eq_new :
    PasswordManagerBuilder.default = PasswordManagerBuilder.new
      ∧ ∀ (ops : List (String × String)) (m : String),
          PasswordManagerBuilder.build
              (PasswordManagerBuilder.with_master_password
                (PasswordManagerBuilder.with_accounts PasswordManagerBuilder.default ops) m)
            = PasswordManagerBuilder.build
              (PasswordManagerBuilder.with_master_password
                (PasswordManagerBuilder.with_accounts PasswordManagerBuilder.new ops) m) :=
  ⟨rfl, fun _ _ => rfl⟩

end RustTypestate
